import Mathlib

/-!
# Book service (`main.go`): request handlers over the in-memory record store

The handlers of `main.go` read and assign the package variable `books`.  Here
every handler is a function from the store before the call (and the request's
path parameter and body) to the response written with `c.JSON` and the store
after the call.
-/

namespace BookService

/-- The `Book` struct of `main.go`: three string fields. -/
structure Book where
  ID : String
  Title : String
  Author : String
  deriving DecidableEq, Repr

/-- What decoding one request body stores through the pointer handed to
`c.BindJSON`: for each of the keys `id`, `title`, `author` the string the
body gives it, or `none` when the decoder stores nothing in that field (the
key is absent from the body, or its value is `null`).  `encoding/json`
assigns only the struct fields whose keys it meets: it never reads the old
field value and never clears a field it has no key for. -/
structure Fields where
  id : Option String
  title : Option String
  author : Option String
  deriving DecidableEq, Repr

/-- A request body, seen through `c.BindJSON`: `ok f` is a body the decoder
accepts (`err == nil`), storing `f`; `bad f msg` is a body it rejects with
the error text `msg`, after storing `f` (nothing on a syntax error, the
fields decoded so far on a type mismatch). -/
inductive Body where
  | ok (f : Fields)
  | bad (f : Fields) (msg : String)
  deriving DecidableEq, Repr

/-- The payload handed to `c.JSON`: one record, the whole sequence, or the
`gin.H` map with the single key `error`. -/
inductive Payload where
  | book (b : Book)
  | books (bs : List Book)
  | error (msg : String)
  deriving DecidableEq, Repr

/-- A response: the status code and the payload of the `c.JSON` call. -/
structure Response where
  status : Nat
  payload : Payload
  deriving DecidableEq, Repr

/-- Value of `http.StatusOK`. -/
def StatusOK : Nat := 200
/-- Value of `http.StatusCreated`. -/
def StatusCreated : Nat := 201
/-- Value of `http.StatusBadRequest`. -/
def StatusBadRequest : Nat := 400
/-- Value of `http.StatusNotFound`. -/
def StatusNotFound : Nat := 404

/-- The fixed message of the two 404 answers. -/
def notFoundMessage : String := "Livro não encontrado"

/-- The store after `init`: the two seed records. -/
def initBooks : List Book :=
  [] ++ [{ ID := "1", Title := "Book 1", Author := "Author 1" }]
     ++ [{ ID := "2", Title := "Book 2", Author := "Author 2" }]

/-- Stores the decoded fields into the record behind the pointer: a field
with a value in the body is assigned, any other field keeps what the record
held. -/
def Fields.store (f : Fields) (target : Book) : Book :=
  { ID := f.id.getD target.ID
    Title := f.title.getD target.Title
    Author := f.author.getD target.Author }

/-- Models `c.BindJSON(&target)`: the record after decoding into it, and the
error (`none` for `nil`). -/
def BindJSON (target : Book) : Body → Book × Option String
  | Body.ok f => (f.store target, none)
  | Body.bad f msg => (f.store target, some msg)

/-- The `for index, item := range books` loop with the test
`item.ID == id`, which all three id handlers leave on the first hit: the
index and the record of the first hit, scanning upwards from `index`. -/
def rangeFirst (id : String) : List Book → Nat → Option (Nat × Book)
  | [], _ => none
  | item :: rest, index =>
    if item.ID = id then some (index, item) else rangeFirst id rest (index + 1)

/-- Handler `getBooks`. -/
def getBooks (books : List Book) : Response × List Book :=
  (⟨StatusOK, Payload.books books⟩, books)

/-- Handler `getBook`. -/
def getBook (books : List Book) (id : String) : Response × List Book :=
  match rangeFirst id books 0 with
  | some (_, item) => (⟨StatusOK, Payload.book item⟩, books)
  | none => (⟨StatusNotFound, Payload.error notFoundMessage⟩, books)

/-- Handler `createBook`: `var book Book` is the zero record. -/
def createBook (books : List Book) (body : Body) : Response × List Book :=
  match BindJSON { ID := "", Title := "", Author := "" } body with
  | (_, some err) => (⟨StatusBadRequest, Payload.error err⟩, books)
  | (book, none) => (⟨StatusCreated, Payload.book book⟩, books ++ [book])

/-- Handler `updateBook`: the decoder writes into `books[index]` itself, so
the store holds what it wrote also when it reports an error. -/
def updateBook (books : List Book) (id : String) (body : Body) :
    Response × List Book :=
  match rangeFirst id books 0 with
  | some (index, item) =>
    match BindJSON item body with
    | (stored, some err) =>
      (⟨StatusBadRequest, Payload.error err⟩, books.set index stored)
    | (stored, none) =>
      let updated : Book := { stored with ID := id }
      (⟨StatusOK, Payload.book updated⟩, books.set index updated)
  | none => (⟨StatusNotFound, Payload.error notFoundMessage⟩, books)

/-- Handler `deleteBook`:
`books = append(books[:index], books[index+1:]...)` on the first hit. -/
def deleteBook (books : List Book) (id : String) : Response × List Book :=
  match rangeFirst id books 0 with
  | some (index, _) =>
    let books1 := books.take index ++ books.drop (index + 1)
    (⟨StatusOK, Payload.books books1⟩, books1)
  | none => (⟨StatusOK, Payload.books books⟩, books)

/-- The body `{"title":"New"}`. -/
def titleOnlyBody : Body :=
  Body.ok { id := none, title := some "New", author := none }

/-! ## The scan -/

theorem rangeFirst_eq_none_iff (id : String) (books : List Book) (k : Nat) :
    rangeFirst id books k = none ↔ ∀ r ∈ books, r.ID ≠ id := by
  induction books generalizing k with
  | nil => simp [rangeFirst]
  | cons item rest ih =>
    by_cases h : item.ID = id
    · simp [rangeFirst, h]
    · simp [rangeFirst, h, ih]

theorem rangeFirst_append_cons (id : String) (pre : List Book) (item : Book)
    (post : List Book) (k : Nat) (hpre : ∀ r ∈ pre, r.ID ≠ id) (hid : item.ID = id) :
    rangeFirst id (pre ++ item :: post) k = some (k + pre.length, item) := by
  induction pre generalizing k with
  | nil => simp [rangeFirst, hid]
  | cons p ps ih =>
    have hp : p.ID ≠ id := hpre p (List.mem_cons_self p ps)
    have hps : ∀ r ∈ ps, r.ID ≠ id := fun r hr => hpre r (List.mem_cons_of_mem p hr)
    have hk : k + 1 + ps.length = k + (ps.length + 1) := by omega
    have hstep := ih (k + 1) hps
    rw [hk] at hstep
    simpa [rangeFirst, hp] using hstep

theorem exists_first (id : String) (books : List Book) (h : ∃ r ∈ books, r.ID = id) :
    ∃ pre item post, books = pre ++ item :: post ∧ (∀ r ∈ pre, r.ID ≠ id) ∧ item.ID = id := by
  induction books with
  | nil => simp at h
  | cons b rest ih =>
    by_cases hb : b.ID = id
    · exact ⟨[], b, rest, rfl, by simp, hb⟩
    · have h1 : ∃ r ∈ rest, r.ID = id := by
        obtain ⟨r, hr, hrid⟩ := h
        rcases List.mem_cons.mp hr with rfl | hr1
        · exact absurd hrid hb
        · exact ⟨r, hr1, hrid⟩
      obtain ⟨pre, item, post, he, hpre, hid⟩ := ih h1
      refine ⟨b :: pre, item, post, by simp [he], ?_, hid⟩
      intro r hr
      rcases List.mem_cons.mp hr with rfl | hr1
      · exact hb
      · exact hpre r hr1

theorem first_unique (id : String) (pre pre1 : List Book) (item item1 : Book)
    (post post1 : List Book) (he : pre ++ item :: post = pre1 ++ item1 :: post1)
    (hpre : ∀ r ∈ pre, r.ID ≠ id) (hid : item.ID = id)
    (hpre1 : ∀ r ∈ pre1, r.ID ≠ id) (hid1 : item1.ID = id) :
    pre = pre1 ∧ item = item1 ∧ post = post1 := by
  have h1 := rangeFirst_append_cons id pre item post 0 hpre hid
  have h2 := rangeFirst_append_cons id pre1 item1 post1 0 hpre1 hid1
  rw [he, h2] at h1
  simp only [Option.some.injEq, Prod.mk.injEq, zero_add] at h1
  obtain ⟨hlen, hitem⟩ := h1
  have hp : pre = pre1 := by
    have := congrArg (List.take pre.length) he
    simpa [hlen] using this
  subst hp
  subst hitem
  simpa using he

/-! ## Each handler on a store split at the first record of the id -/

theorem getBook_at (id : String) (pre : List Book) (item : Book) (post : List Book)
    (hpre : ∀ r ∈ pre, r.ID ≠ id) (hid : item.ID = id) :
    getBook (pre ++ item :: post) id =
      (⟨StatusOK, Payload.book item⟩, pre ++ item :: post) := by
  simp [getBook, rangeFirst_append_cons id pre item post 0 hpre hid]

theorem getBook_absent (id : String) (books : List Book) (h : ∀ r ∈ books, r.ID ≠ id) :
    getBook books id = (⟨StatusNotFound, Payload.error notFoundMessage⟩, books) := by
  simp [getBook, (rangeFirst_eq_none_iff id books 0).mpr h]

theorem updateBook_ok_at (id : String) (f : Fields) (pre : List Book) (item : Book)
    (post : List Book) (hpre : ∀ r ∈ pre, r.ID ≠ id) (hid : item.ID = id) :
    updateBook (pre ++ item :: post) id (Body.ok f) =
      (⟨StatusOK, Payload.book { f.store item with ID := id }⟩,
        pre ++ { f.store item with ID := id } :: post) := by
  simp [updateBook, BindJSON, rangeFirst_append_cons id pre item post 0 hpre hid]

theorem updateBook_bad_at (id : String) (f : Fields) (msg : String) (pre : List Book)
    (item : Book) (post : List Book) (hpre : ∀ r ∈ pre, r.ID ≠ id) (hid : item.ID = id) :
    updateBook (pre ++ item :: post) id (Body.bad f msg) =
      (⟨StatusBadRequest, Payload.error msg⟩, pre ++ f.store item :: post) := by
  simp [updateBook, BindJSON, rangeFirst_append_cons id pre item post 0 hpre hid]

theorem updateBook_absent (id : String) (body : Body) (books : List Book)
    (h : ∀ r ∈ books, r.ID ≠ id) :
    updateBook books id body = (⟨StatusNotFound, Payload.error notFoundMessage⟩, books) := by
  simp [updateBook, (rangeFirst_eq_none_iff id books 0).mpr h]

theorem deleteBook_at (id : String) (pre : List Book) (item : Book) (post : List Book)
    (hpre : ∀ r ∈ pre, r.ID ≠ id) (hid : item.ID = id) :
    deleteBook (pre ++ item :: post) id =
      (⟨StatusOK, Payload.books (pre ++ post)⟩, pre ++ post) := by
  simp [deleteBook, rangeFirst_append_cons id pre item post 0 hpre hid]

theorem deleteBook_absent (id : String) (books : List Book) (h : ∀ r ∈ books, r.ID ≠ id) :
    deleteBook books id = (⟨StatusOK, Payload.books books⟩, books) := by
  simp [deleteBook, (rangeFirst_eq_none_iff id books 0).mpr h]

theorem createBook_ok (books : List Book) (f : Fields) :
    createBook books (Body.ok f) =
      (⟨StatusCreated, Payload.book (f.store { ID := "", Title := "", Author := "" })⟩,
        books ++ [f.store { ID := "", Title := "", Author := "" }]) := by
  simp [createBook, BindJSON]

/-! ## updateBook -/

/-- C1 as stated fails on the seed store: `PUT /book/1` with the body
`{"title":"New"}` answers 200 with id "1", title "New" and the author held
before, "Author 1", and stores that record; the answer is not the record
with the empty author. -/
theorem updateBook_overwrite_counterexample :
    updateBook initBooks "1" titleOnlyBody =
      (⟨200, Payload.book ⟨"1", "New", "Author 1"⟩⟩,
        [⟨"1", "New", "Author 1"⟩, ⟨"2", "Book 2", "Author 2"⟩]) ∧
    (updateBook initBooks "1" titleOnlyBody).1 ≠ ⟨200, Payload.book ⟨"1", "New", ""⟩⟩ := by
  decide

/-- C1 amended: when the store has a record with the path id and the body is
well-formed, `updateBook` answers 200 with the updated first record `u` of
that id and stores `u` at its place; `u` has the path id, each of title and
author that the body gives holds the body's value, and each of title and
author absent from the body keeps the value the record held before. -/
theorem updateBook_merges_body (books : List Book) (id : String) (f : Fields)
    (h : ∃ r ∈ books, r.ID = id) :
    ∃ pre item post u, books = pre ++ item :: post ∧ (∀ r ∈ pre, r.ID ≠ id) ∧
      item.ID = id ∧
      updateBook books id (Body.ok f) = (⟨200, Payload.book u⟩, pre ++ u :: post) ∧
      u.ID = id ∧
      (∀ v, f.title = some v → u.Title = v) ∧ (f.title = none → u.Title = item.Title) ∧
      (∀ v, f.author = some v → u.Author = v) ∧
      (f.author = none → u.Author = item.Author) := by
  obtain ⟨pre, item, post, he, hpre, hid⟩ := exists_first id books h
  refine ⟨pre, item, post, { f.store item with ID := id }, he, hpre, hid, ?_, rfl, ?_, ?_, ?_, ?_⟩
  · rw [he, updateBook_ok_at id f pre item post hpre hid]
    rfl
  · intro v hv
    simp [Fields.store, hv]
  · intro hv
    simp [Fields.store, hv]
  · intro v hv
    simp [Fields.store, hv]
  · intro hv
    simp [Fields.store, hv]

/-- Witness of C1 amended on the seed store, path id "1", body
`{"title":"New"}`. -/
theorem updateBook_merges_body_witness :
    (∃ r ∈ initBooks, r.ID = "1") ∧
    ∃ pre item post u, initBooks = pre ++ item :: post ∧ (∀ r ∈ pre, r.ID ≠ "1") ∧
      item.ID = "1" ∧
      updateBook initBooks "1" (Body.ok ⟨none, some "New", none⟩) =
        (⟨200, Payload.book u⟩, pre ++ u :: post) ∧
      u.ID = "1" ∧
      (∀ v, (some "New" : Option String) = some v → u.Title = v) ∧
      ((some "New" : Option String) = none → u.Title = item.Title) ∧
      (∀ v, (none : Option String) = some v → u.Author = v) ∧
      ((none : Option String) = none → u.Author = item.Author) :=
  ⟨⟨⟨"1", "Book 1", "Author 1"⟩, by decide, rfl⟩,
    updateBook_merges_body initBooks "1" ⟨none, some "New", none⟩
      ⟨⟨"1", "Book 1", "Author 1"⟩, by decide, rfl⟩⟩

/-- C2 as stated fails when no record has the path id: on the seed store,
`PUT /book/99` with a body the decoder rejects answers 404, not 400. -/
theorem updateBook_malformed_counterexample :
    (updateBook initBooks "99" (Body.bad ⟨none, none, none⟩ "EOF")).1 =
      ⟨404, Payload.error notFoundMessage⟩ ∧
    (updateBook initBooks "99" (Body.bad ⟨none, none, none⟩ "EOF")).1.status ≠ 400 := by
  decide

/-- C2 amended: when the store has a record with the path id, `updateBook`
answers every malformed body with status 400 and the error payload carrying
the decoder's message. -/
theorem updateBook_malformed (books : List Book) (id : String) (f : Fields) (msg : String)
    (h : ∃ r ∈ books, r.ID = id) :
    (updateBook books id (Body.bad f msg)).1 = ⟨400, Payload.error msg⟩ := by
  obtain ⟨pre, item, post, he, hpre, hid⟩ := exists_first id books h
  rw [he, updateBook_bad_at id f msg pre item post hpre hid]
  rfl

/-- Witness of C2 amended on the seed store, path id "2", an empty body. -/
theorem updateBook_malformed_witness :
    (∃ r ∈ initBooks, r.ID = "2") ∧
    (updateBook initBooks "2" (Body.bad ⟨none, none, none⟩ "EOF")).1 =
      ⟨400, Payload.error "EOF"⟩ :=
  ⟨⟨⟨"2", "Book 2", "Author 2"⟩, by decide, rfl⟩,
    updateBook_malformed initBooks "2" ⟨none, none, none⟩ "EOF"
      ⟨⟨"2", "Book 2", "Author 2"⟩, by decide, rfl⟩⟩

/-- C3: when the store has a record with the path id, `updateBook` answers
every well-formed body, whatever id it carries, with status 200 and a record
whose id is the path id, and that record stands in the store afterwards at
the place of the first record of the id. -/
theorem updateBook_forces_path_id (books : List Book) (id : String) (f : Fields)
    (h : ∃ r ∈ books, r.ID = id) :
    ∃ pre item post u, books = pre ++ item :: post ∧ (∀ r ∈ pre, r.ID ≠ id) ∧
      item.ID = id ∧
      (updateBook books id (Body.ok f)).1 = ⟨200, Payload.book u⟩ ∧
      (updateBook books id (Body.ok f)).2 = pre ++ u :: post ∧
      u.ID = id := by
  obtain ⟨pre, item, post, he, hpre, hid⟩ := exists_first id books h
  refine ⟨pre, item, post, { f.store item with ID := id }, he, hpre, hid, ?_, ?_, rfl⟩
  · rw [he, updateBook_ok_at id f pre item post hpre hid]
    rfl
  · rw [he, updateBook_ok_at id f pre item post hpre hid]

/-- Witness of C3 on the seed store, path id "1", a body carrying the id
"7". -/
theorem updateBook_forces_path_id_witness :
    (∃ r ∈ initBooks, r.ID = "1") ∧
    ∃ pre item post u, initBooks = pre ++ item :: post ∧ (∀ r ∈ pre, r.ID ≠ "1") ∧
      item.ID = "1" ∧
      (updateBook initBooks "1" (Body.ok ⟨some "7", some "T", some "A"⟩)).1 =
        ⟨200, Payload.book u⟩ ∧
      (updateBook initBooks "1" (Body.ok ⟨some "7", some "T", some "A"⟩)).2 =
        pre ++ u :: post ∧
      u.ID = "1" :=
  ⟨⟨⟨"1", "Book 1", "Author 1"⟩, by decide, rfl⟩,
    updateBook_forces_path_id initBooks "1" ⟨some "7", some "T", some "A"⟩
      ⟨⟨"1", "Book 1", "Author 1"⟩, by decide, rfl⟩⟩

/-- C9: for every store, id and body, `updateBook` keeps the length of the
store; when some record has the id, the store afterwards differs from the
store before at most at the place of the first record of the id (every
record before and after it, later records of the same id included, is
unchanged); when no record has the id, it answers 404 with the error payload
and the store is unchanged. -/
theorem updateBook_frame (books : List Book) (id : String) (body : Body) :
    (updateBook books id body).2.length = books.length ∧
    ((∃ r ∈ books, r.ID = id) →
      ∃ pre item post u, books = pre ++ item :: post ∧ (∀ r ∈ pre, r.ID ≠ id) ∧
        item.ID = id ∧ (updateBook books id body).2 = pre ++ u :: post) ∧
    ((∀ r ∈ books, r.ID ≠ id) →
      updateBook books id body = (⟨404, Payload.error notFoundMessage⟩, books)) := by
  have hfound : (∃ r ∈ books, r.ID = id) →
      ∃ pre item post u, books = pre ++ item :: post ∧ (∀ r ∈ pre, r.ID ≠ id) ∧
        item.ID = id ∧ (updateBook books id body).2 = pre ++ u :: post := by
    intro h
    obtain ⟨pre, item, post, he, hpre, hid⟩ := exists_first id books h
    cases body with
    | ok f =>
      exact ⟨pre, item, post, { f.store item with ID := id }, he, hpre, hid, by
        rw [he, updateBook_ok_at id f pre item post hpre hid]⟩
    | bad f msg =>
      exact ⟨pre, item, post, f.store item, he, hpre, hid, by
        rw [he, updateBook_bad_at id f msg pre item post hpre hid]⟩
  have habsent : (∀ r ∈ books, r.ID ≠ id) →
      updateBook books id body = (⟨404, Payload.error notFoundMessage⟩, books) := by
    intro h
    rw [updateBook_absent id body books h]
    rfl
  refine ⟨?_, hfound, habsent⟩
  by_cases h : ∃ r ∈ books, r.ID = id
  · obtain ⟨pre, item, post, u, he, _, _, hu⟩ := hfound h
    rw [hu, he]
    simp
  · have h1 : ∀ r ∈ books, r.ID ≠ id := fun r hr hrid => h ⟨r, hr, hrid⟩
    rw [habsent h1]

/-- Witness of C9 on a store with two records of the id "1": the update
rewrites the first and leaves the second. -/
theorem updateBook_frame_witness :
    (∃ pre item post u,
      ([⟨"1", "a", "x"⟩, ⟨"1", "b", "y"⟩] : List Book) = pre ++ item :: post ∧
      (∀ r ∈ pre, r.ID ≠ "1") ∧ item.ID = "1" ∧
      (updateBook [⟨"1", "a", "x"⟩, ⟨"1", "b", "y"⟩] "1"
        (Body.ok ⟨none, some "c", none⟩)).2 = pre ++ u :: post) ∧
    updateBook initBooks "3" (Body.ok ⟨none, some "c", none⟩) =
      (⟨404, Payload.error notFoundMessage⟩, initBooks) :=
  ⟨(updateBook_frame [⟨"1", "a", "x"⟩, ⟨"1", "b", "y"⟩] "1"
      (Body.ok ⟨none, some "c", none⟩)).2.1 ⟨⟨"1", "a", "x"⟩, by decide, rfl⟩,
    (updateBook_frame initBooks "3" (Body.ok ⟨none, some "c", none⟩)).2.2 (by decide)⟩

/-! ## deleteBook -/

/-- C4: for every store and id, `deleteBook` removes at most one record;
when some record has the id, the store splits as `pre ++ item :: post` with
`item` the first record of the id, the store afterwards is `pre ++ post`
(one record shorter, later records of the same id and the order of all the
others kept), and that sequence is the payload of the 200 answer. -/
theorem deleteBook_removes_first (books : List Book) (id : String) :
    books.length ≤ (deleteBook books id).2.length + 1 ∧
    ((∃ r ∈ books, r.ID = id) →
      ∃ pre item post, books = pre ++ item :: post ∧ (∀ r ∈ pre, r.ID ≠ id) ∧
        item.ID = id ∧
        deleteBook books id = (⟨200, Payload.books (pre ++ post)⟩, pre ++ post) ∧
        (deleteBook books id).2.length + 1 = books.length) := by
  have hfound : (∃ r ∈ books, r.ID = id) →
      ∃ pre item post, books = pre ++ item :: post ∧ (∀ r ∈ pre, r.ID ≠ id) ∧
        item.ID = id ∧
        deleteBook books id = (⟨200, Payload.books (pre ++ post)⟩, pre ++ post) ∧
        (deleteBook books id).2.length + 1 = books.length := by
    intro h
    obtain ⟨pre, item, post, he, hpre, hid⟩ := exists_first id books h
    refine ⟨pre, item, post, he, hpre, hid, ?_, ?_⟩
    · rw [he, deleteBook_at id pre item post hpre hid]
      rfl
    · rw [he, deleteBook_at id pre item post hpre hid]
      simp
      omega
  refine ⟨?_, hfound⟩
  by_cases h : ∃ r ∈ books, r.ID = id
  · obtain ⟨_, _, _, _, _, _, _, hlen⟩ := hfound h
    omega
  · have h1 : ∀ r ∈ books, r.ID ≠ id := fun r hr hrid => h ⟨r, hr, hrid⟩
    rw [deleteBook_absent id books h1]
    simp

/-- Witness of C4 on a store with two records of the id "1" around a record
of the id "2". -/
theorem deleteBook_removes_first_witness :
    ∃ pre item post,
      ([⟨"2", "m", "n"⟩, ⟨"1", "a", "x"⟩, ⟨"1", "b", "y"⟩] : List Book) =
        pre ++ item :: post ∧
      (∀ r ∈ pre, r.ID ≠ "1") ∧ item.ID = "1" ∧
      deleteBook [⟨"2", "m", "n"⟩, ⟨"1", "a", "x"⟩, ⟨"1", "b", "y"⟩] "1" =
        (⟨200, Payload.books (pre ++ post)⟩, pre ++ post) ∧
      (deleteBook [⟨"2", "m", "n"⟩, ⟨"1", "a", "x"⟩, ⟨"1", "b", "y"⟩] "1").2.length + 1 =
        ([⟨"2", "m", "n"⟩, ⟨"1", "a", "x"⟩, ⟨"1", "b", "y"⟩] : List Book).length :=
  (deleteBook_removes_first [⟨"2", "m", "n"⟩, ⟨"1", "a", "x"⟩, ⟨"1", "b", "y"⟩] "1").2
    ⟨⟨"1", "a", "x"⟩, by decide, rfl⟩

/-- C5: when no record of the store has the id, `deleteBook` leaves the store
unchanged and answers 200 with the unchanged sequence. -/
theorem deleteBook_absent_unchanged (books : List Book) (id : String)
    (h : ∀ r ∈ books, r.ID ≠ id) :
    deleteBook books id = (⟨200, Payload.books books⟩, books) := by
  rw [deleteBook_absent id books h]
  rfl

/-- Witness of C5 on the seed store, id "99". -/
theorem deleteBook_absent_unchanged_witness :
    (∀ r ∈ initBooks, r.ID ≠ "99") ∧
    deleteBook initBooks "99" = (⟨200, Payload.books initBooks⟩, initBooks) :=
  ⟨by decide, deleteBook_absent_unchanged initBooks "99" (by decide)⟩

/-! ## createBook -/

/-- C6: for every store and well-formed body, `createBook` answers 201 with
a record `b` whose id, title and author are the ones the body gives (the
empty string for a field the body leaves out, an empty id included), and the
store afterwards is the store before with `b` appended, one record
longer. -/
theorem createBook_appends (books : List Book) (f : Fields) :
    ∃ b, createBook books (Body.ok f) = (⟨201, Payload.book b⟩, books ++ [b]) ∧
      b.ID = f.id.getD "" ∧ b.Title = f.title.getD "" ∧ b.Author = f.author.getD "" ∧
      (createBook books (Body.ok f)).2.length = books.length + 1 ∧
      (createBook books (Body.ok f)).2.take books.length = books := by
  refine ⟨f.store { ID := "", Title := "", Author := "" }, ?_, rfl, rfl, rfl, ?_, ?_⟩
  · rw [createBook_ok]
    rfl
  · rw [createBook_ok]
    simp
  · rw [createBook_ok]
    simp

/-- C7: for every store and malformed body, `createBook` answers 400 with
the error payload carrying the decoder's message and leaves the store
unchanged. -/
theorem createBook_malformed (books : List Book) (f : Fields) (msg : String) :
    createBook books (Body.bad f msg) = (⟨400, Payload.error msg⟩, books) := by
  simp [createBook, BindJSON, StatusBadRequest]

/-! ## getBook -/

/-- C8: for every store and id, `getBook` answers 200 with the first record
of the id when the store has one, answers 404 exactly when no record has the
id, then with the error payload, never changes the store, and gives the same
result when called again. -/
theorem getBook_first_match (books : List Book) (id : String) :
    ((∃ r ∈ books, r.ID = id) →
      ∃ pre item post, books = pre ++ item :: post ∧ (∀ r ∈ pre, r.ID ≠ id) ∧
        item.ID = id ∧ (getBook books id).1 = ⟨200, Payload.book item⟩) ∧
    ((getBook books id).1.status = 404 ↔ ∀ r ∈ books, r.ID ≠ id) ∧
    ((∀ r ∈ books, r.ID ≠ id) →
      (getBook books id).1 = ⟨404, Payload.error notFoundMessage⟩) ∧
    (getBook books id).2 = books ∧
    getBook (getBook books id).2 id = getBook books id := by
  have hfound : (∃ r ∈ books, r.ID = id) →
      ∃ pre item post, books = pre ++ item :: post ∧ (∀ r ∈ pre, r.ID ≠ id) ∧
        item.ID = id ∧ (getBook books id).1 = ⟨200, Payload.book item⟩ := by
    intro h
    obtain ⟨pre, item, post, he, hpre, hid⟩ := exists_first id books h
    refine ⟨pre, item, post, he, hpre, hid, ?_⟩
    rw [he, getBook_at id pre item post hpre hid]
    rfl
  have habsent : (∀ r ∈ books, r.ID ≠ id) →
      (getBook books id).1 = ⟨404, Payload.error notFoundMessage⟩ := by
    intro h
    rw [getBook_absent id books h]
    rfl
  have hstore : (getBook books id).2 = books := by
    unfold getBook
    split <;> rfl
  refine ⟨hfound, ⟨?_, ?_⟩, habsent, hstore, by rw [hstore]⟩
  · intro hs r hr hrid
    obtain ⟨_, item, _, _, _, _, hg⟩ := hfound ⟨r, hr, hrid⟩
    rw [hg] at hs
    have hne : (200 : Nat) ≠ 404 := by decide
    exact hne hs
  · intro h
    rw [habsent h]

/-- Witness of C8 on the seed store: id "2" is found, id "99" is not. -/
theorem getBook_first_match_witness :
    (∃ pre item post, initBooks = pre ++ item :: post ∧ (∀ r ∈ pre, r.ID ≠ "2") ∧
      item.ID = "2" ∧ (getBook initBooks "2").1 = ⟨200, Payload.book item⟩) ∧
    (getBook initBooks "99").1 = ⟨404, Payload.error notFoundMessage⟩ :=
  ⟨(getBook_first_match initBooks "2").1 ⟨⟨"2", "Book 2", "Author 2"⟩, by decide, rfl⟩,
    (getBook_first_match initBooks "99").2.2.1 (by decide)⟩

/-! ## createBook followed by getBook -/

/-- C10 as stated fails on a store with two records of one id: creating a
copy of the second record succeeds, an earlier record with that id equals
the created one, and `getBook` with that id answers the first record, not
the created one. -/
theorem getBook_after_createBook_counterexample :
    createBook [⟨"1", "X", "A"⟩, ⟨"1", "Y", "A"⟩]
        (Body.ok ⟨some "1", some "Y", some "A"⟩) =
      (⟨201, Payload.book ⟨"1", "Y", "A"⟩⟩,
        [⟨"1", "X", "A"⟩, ⟨"1", "Y", "A"⟩, ⟨"1", "Y", "A"⟩]) ∧
    (∃ r ∈ ([⟨"1", "X", "A"⟩, ⟨"1", "Y", "A"⟩] : List Book),
      r.ID = "1" ∧ r = ⟨"1", "Y", "A"⟩) ∧
    (getBook [⟨"1", "X", "A"⟩, ⟨"1", "Y", "A"⟩, ⟨"1", "Y", "A"⟩] "1").1 =
      ⟨200, Payload.book ⟨"1", "X", "A"⟩⟩ ∧
    (getBook [⟨"1", "X", "A"⟩, ⟨"1", "Y", "A"⟩, ⟨"1", "Y", "A"⟩] "1").1 ≠
      ⟨200, Payload.book ⟨"1", "Y", "A"⟩⟩ := by
  decide

/-- C10 amended: after `createBook` has answered 201 with the record `b` on
the store `books`, `getBook` with the id of `b` answers `b` if and only if no
record of `books` has that id or the first record of `books` with that id
equals `b`; when `books` has a record with that id, `getBook` answers the
first of them, as it did before the create. -/
theorem getBook_after_createBook (books : List Book) (f : Fields) (b : Book)
    (books1 : List Book)
    (h : createBook books (Body.ok f) = (⟨201, Payload.book b⟩, books1)) :
    ((getBook books1 b.ID).1 = ⟨200, Payload.book b⟩ ↔
      ((∀ r ∈ books, r.ID ≠ b.ID) ∨
        ∃ pre post, books = pre ++ b :: post ∧ ∀ r ∈ pre, r.ID ≠ b.ID)) ∧
    ((∃ r ∈ books, r.ID = b.ID) →
      ∃ pre item post, books = pre ++ item :: post ∧ (∀ r ∈ pre, r.ID ≠ b.ID) ∧
        item.ID = b.ID ∧ (getBook books1 b.ID).1 = ⟨200, Payload.book item⟩ ∧
        (getBook books b.ID).1 = ⟨200, Payload.book item⟩) := by
  rw [createBook_ok] at h
  simp only [Prod.mk.injEq, Response.mk.injEq, Payload.book.injEq] at h
  obtain ⟨⟨_, hb⟩, hs⟩ := h
  rw [hb] at hs
  subst hs
  have hfound : (∃ r ∈ books, r.ID = b.ID) →
      ∃ pre item post, books = pre ++ item :: post ∧ (∀ r ∈ pre, r.ID ≠ b.ID) ∧
        item.ID = b.ID ∧ (getBook (books ++ [b]) b.ID).1 = ⟨200, Payload.book item⟩ ∧
        (getBook books b.ID).1 = ⟨200, Payload.book item⟩ := by
    intro hex
    obtain ⟨pre, item, post, he, hpre, hid⟩ := exists_first b.ID books hex
    refine ⟨pre, item, post, he, hpre, hid, ?_, ?_⟩
    · have he1 : books ++ [b] = pre ++ item :: (post ++ [b]) := by simp [he]
      rw [he1, getBook_at b.ID pre item (post ++ [b]) hpre hid]
      rfl
    · rw [he, getBook_at b.ID pre item post hpre hid]
      rfl
  refine ⟨?_, hfound⟩
  by_cases hex : ∃ r ∈ books, r.ID = b.ID
  · obtain ⟨pre, item, post, he, hpre, hid, hg, _⟩ := hfound hex
    rw [hg]
    constructor
    · intro hitem
      simp only [Response.mk.injEq, Payload.book.injEq, true_and] at hitem
      exact Or.inr ⟨pre, post, by rw [he, hitem], hpre⟩
    · intro hr
      rcases hr with hno | ⟨pre1, post1, he1, hpre1⟩
      · obtain ⟨r, hr, hrid⟩ := hex
        exact absurd hrid (hno r hr)
      · have hu := first_unique b.ID pre pre1 item b post post1 (by rw [← he, ← he1])
          hpre hid hpre1 rfl
        rw [hu.2.1]
  · have hno : ∀ r ∈ books, r.ID ≠ b.ID := fun r hr hrid => hex ⟨r, hr, hrid⟩
    rw [getBook_at b.ID books b [] hno rfl]
    exact ⟨fun _ => Or.inl hno, fun _ => rfl⟩

/-- Witness of C10 amended on the seed store with the body
`{"id":"1","title":"T","author":"A"}`: the record of the id "1" already in
the store is the one `getBook` answers. -/
theorem getBook_after_createBook_witness :
    createBook initBooks (Body.ok ⟨some "1", some "T", some "A"⟩) =
      (⟨201, Payload.book ⟨"1", "T", "A"⟩⟩, initBooks ++ [⟨"1", "T", "A"⟩]) ∧
    ∃ pre item post, initBooks = pre ++ item :: post ∧ (∀ r ∈ pre, r.ID ≠ "1") ∧
      item.ID = "1" ∧
      (getBook (initBooks ++ [⟨"1", "T", "A"⟩]) "1").1 = ⟨200, Payload.book item⟩ ∧
      (getBook initBooks "1").1 = ⟨200, Payload.book item⟩ :=
  ⟨by decide,
    (getBook_after_createBook initBooks ⟨some "1", some "T", some "A"⟩ ⟨"1", "T", "A"⟩
      (initBooks ++ [⟨"1", "T", "A"⟩]) (by decide)).2
      ⟨⟨"1", "Book 1", "Author 1"⟩, by decide, rfl⟩⟩

end BookService
